import Mathlib

/-!
# Verification of the Nordic 5-zone heart-rate calculator

Shallow embedding of the core computation of
`src/streamlit_nordic_zones_full.py`:

* time-string parsing (`to_sec`, lines 134-142),
* the required-column check (lines 118-121),
* lactate-threshold detection (`inc`/`thr` loop, lines 149-156),
* the two zone-boundary models (`zones_max` / `zones_thr`, lines 165-176),
* the end-to-end validation + calculation pipeline (`runApp`).

Real-valued arithmetic of the script is embedded as `ℚ`.  The decimal
literals of the source (`0.5`, `0.9`, `0.55`, ...) are taken as exact
rationals; for the comparisons performed by the script on heart-rate-sized
integer data the IEEE-double results coincide with the exact rational
results (the literals' representation error, below `2⁻⁵⁰` relatively, is far
too small to flip any comparison or truncation appearing here, since no
intermediate quantity lies within `10⁻¹²` of a comparison boundary or an
integer other than exactly at it, in which case both sides agree).
Python's `int()` (truncation toward zero) is embedded as `pyTrunc`.

The script has no exception handling in the embedded region: `float()`
failing on a non-numeric time component (line 135) and
`int(df['HR'].max())` on a zero-row table (line 149) abort the run as
uncaught `ValueError`s.  These aborts are embedded as explicit error
outcomes of `runApp`, distinct from the user-facing missing-column stop
and from the per-cell `np.nan` that a wrong count of numeric components
produces.
-/

namespace NordicZones

/-- Python `int()` applied to a real value: truncation toward zero. -/
def pyTrunc (q : ℚ) : ℤ := if 0 ≤ q then ⌊q⌋ else ⌈q⌉

/-! ## Threshold (LTHR) detection — source lines 149-156

`inc = df['HR'].diff().fillna(0)` is the series with `inc[0] = 0` and
`inc[i] = HR[i] - HR[i-1]`; we embed it as an indexed function on the
(sorted) heart-rate list.  Heart rates are integers (`bpm`), as in the
data model; `pd.to_numeric` keeps them integral for integer input. -/

/-- `df['HR'].diff().fillna(0)` at index `i`. -/
def inc (hrs : List ℤ) (i : ℕ) : ℤ :=
  if i = 0 then 0 else hrs.getD i 0 - hrs.getD (i - 1) 0

/-- `delta` exactly as the specification words it: `delta[i] =
heartRate[i] - heartRate[i-1]`, with `delta[0] = 0`. -/
def specDelta (hrs : List ℤ) (i : ℕ) : ℤ :=
  if i = 0 then 0 else hrs.getD i 0 - hrs.getD (i - 1) 0

theorem inc_eq_specDelta : inc = specDelta := rfl

/-- The loop condition of source line 153:
`inc[i] > 0 and inc[i-1] > 0 and inc[i] < 0.5*inc[i-1]`. -/
def qualifiesAt (hrs : List ℤ) (i : ℕ) : Bool :=
  decide (0 < inc hrs i) && decide (0 < inc hrs (i - 1)) &&
    decide ((inc hrs i : ℚ) < 0.5 * (inc hrs (i - 1) : ℚ))

/-- The scan `for i in range(2, len(inc)): ... break` of source lines
152-154, returning the index of the first match.  `len(inc)` equals the
number of records, and `range(2, n)` has `n - 2` elements. -/
def detectIdx (hrs : List ℤ) : Option ℕ :=
  (List.range' 2 (hrs.length - 2)).find? (qualifiesAt hrs)

/-- `int(df['HR'].max())` (source line 149) on a nonempty heart-rate
column.  On an empty table pandas yields `NaN` and `int(NaN)` raises;
`runApp` models that abort explicitly (`AppError.maxNanRaise`) and only
consults this function on a nonempty list, so the `[]` case (a junk 0,
present because Lean functions are total) is never reached from the
pipeline. -/
def maxHR : List ℤ → ℤ
  | [] => 0
  | h :: t => t.foldl max h

/-- Threshold detection with fallback (source lines 150-156):
the heart rate at the first qualifying index, otherwise
`int(0.9*max_hr_obs)`. -/
def detectLTHR (hrs : List ℤ) : ℤ :=
  match detectIdx hrs with
  | some i => hrs.getD i 0
  | none => pyTrunc (0.9 * (maxHR hrs : ℚ))

/-! ## Zone tables — source lines 165-176 -/

/-- One zone band: label, low bound, high bound (the source stores the
bands as a dict `label ↦ (lo, hi)`). -/
abbrev Band := String × ℚ × ℚ

def bandLo (b : Band) : ℚ := b.2.1

def bandHi (b : Band) : ℚ := b.2.2

/-- `zones_max(m)`, source lines 165-170. -/
def zones_max (m : ℚ) : List Band :=
  [("Zone 1", 0.55 * m, 0.70 * m),
   ("Zone 2", 0.70 * m, 0.80 * m),
   ("Zone 3", 0.80 * m, 0.87 * m),
   ("Zone 4", 0.87 * m, 0.92 * m),
   ("Zone 5", 0.92 * m, m)]

/-- `zones_thr(t, m)`, source lines 171-176. -/
def zones_thr (t m : ℚ) : List Band :=
  [("Zone 1", 0, t * 0.85),
   ("Zone 2", t * 0.85, t * 0.89),
   ("Zone 3", t * 0.89, t * 0.94),
   ("Zone 4", t * 0.94, t),
   ("Zone 5", t, max (t * 1.15) m)]

/-! ## Time parsing — source lines 134-142

`to_sec(t)` splits `str(t)` on `':'`, converts every component with
`float`, and maps two components to `m*60+s`, three to `h*3600+m*60+s`,
anything else to `np.nan`.  We embed `np.nan` (and a failed `float`) as
`none`. -/

/-- `to_sec` on the already-converted component list (source lines
136-140). -/
def to_sec (parts : List ℚ) : Option ℚ :=
  match parts with
  | [a, b] => some (a * 60 + b)
  | [a, b, c] => some (a * 3600 + b * 60 + c)
  | _ => none

/-- Python `str.split(sep)` for a one-character separator, on the
character list: every occurrence of `sep` separates, empty pieces
preserved, `"" ↦ [""]`. -/
def splitOnC (sep : Char) : List Char → List (List Char)
  | [] => [[]]
  | c :: rest =>
    if c = sep then [] :: splitOnC sep rest
    else
      match splitOnC sep rest with
      | [] => [[c]]
      | p :: ps => (c :: p) :: ps

/-- The `str(t).split(':')` of source line 135. -/
def splitColon : List Char → List (List Char) := splitOnC ':'

/-- Value of an all-digit run, most significant first. -/
def natOfDigits (cs : List Char) : ℕ :=
  cs.foldl (fun n c => 10 * n + (c.toNat - '0'.toNat)) 0

/-- Leading `'+'`/`'-'` of a numeric literal, as `float` accepts it. -/
def stripSign : List Char → ℤ × List Char
  | '+' :: cs => (1, cs)
  | '-' :: cs => (-1, cs)
  | cs => (1, cs)

/-- Mantissa of a decimal literal: digits with at most one dot, at least
one digit overall (`"5"`, `"5."`, `".5"`, `"3.5"`; `""` and `"."`
fail, as `float` rejects them). -/
def parseMant (cs : List Char) : Option ℚ :=
  match splitOnC '.' cs with
  | [ip] =>
    if !ip.isEmpty && ip.all Char.isDigit then some (natOfDigits ip) else none
  | [ip, fp] =>
    if (!ip.isEmpty || !fp.isEmpty) && ip.all Char.isDigit && fp.all Char.isDigit then
      some ((natOfDigits ip : ℚ) + (natOfDigits fp : ℚ) / (10 : ℚ) ^ fp.length)
    else none
  | _ => none

/-- Exponent part of a decimal literal: optional sign, then at least one
digit. -/
def parseExp (cs : List Char) : Option ℤ :=
  let sp := stripSign cs
  if !sp.2.isEmpty && sp.2.all Char.isDigit then
    some (sp.1 * (natOfDigits sp.2 : ℤ))
  else none

/-- Python `float(p)` (source line 135) on a decimal literal: optional
sign, mantissa, optional `e`/`E` exponent, evaluated exactly over `ℚ`
(CPython rounds the decimal value to an IEEE double; per the header note
the difference cannot affect any comparison or value a claim touches).
Strings `float` also accepts that are not plain decimal literals
(surrounding whitespace, `inf`/`nan`, underscore digit separators,
non-ASCII digits) are out of the claims' scope and fail here; every
success of this function is a success of `float` with the same decimal
value, so the failure branch below soundly covers every string on which
`float` raises. -/
def parseNum (cs : List Char) : Option ℚ :=
  let sp := stripSign cs
  let body := sp.2.map fun c => if c = 'E' then 'e' else c
  match splitOnC 'e' body with
  | [mant] => (parseMant mant).map fun q => (sp.1 : ℚ) * q
  | [mant, ex] =>
    (parseMant mant).bind fun q =>
      (parseExp ex).map fun e => (sp.1 : ℚ) * q * (10 : ℚ) ^ e
  | _ => none

/-- The component list of one `Time` cell: split on `':'` and convert
every component with `float` (source line 135).  `none` means `float`
raised, which aborts the whole submission (uncaught `ValueError` out of
`df['Time'].apply`); `runApp` keeps that abort distinct from the
`np.nan` that `to_sec` yields for a wrong component count. -/
def timeComponents (s : String) : Option (List ℚ) :=
  (splitColon s.toList).mapM parseNum

/-- Cell-level seconds value: `to_sec` after splitting and converting.
Used by the claims on strings whose components all parse; the abort
path of a failed `float` is distinguished in `runApp` via
`timeComponents`, not here. -/
def to_sec_str (s : String) : Option ℚ :=
  (timeComponents s).bind to_sec

/-! ## Validation and pipeline — source lines 118-131 and 158-178 -/

/-- One input row after the `Lap`/`HR` coercions of source lines 123-128
(`Lap` to `int`, `HR` numeric; integral for integer input). -/
structure Row where
  lap : ℤ
  time : String
  hr : ℤ
deriving DecidableEq

/-- The parsed input table: its column names and its rows. -/
structure InTable where
  cols : List String
  rows : List Row
deriving DecidableEq

/-- The ways a submission terminates without a result.
`missingColumns` is the script's own validation failure (`st.error` +
`st.stop`, source lines 119-121).  The other two are uncaught exceptions
— the script crashes rather than reporting: `timeFloatRaise` is the
`ValueError` from `float()` on a non-numeric time component (line 135,
propagating out of `df['Time'].apply`); `maxNanRaise` is the
`ValueError` from `int(df['HR'].max())` on a zero-row table (line 149,
`max()` of an empty column is `NaN`).  A wrong component *count* of
numeric components and out-of-range anchor overrides raise nothing. -/
inductive AppError
  | missingColumns (cols : List String)
  | timeFloatRaise
  | maxNanRaise
deriving DecidableEq

inductive ZoneModel
  | byMaxHR
  | byThresholdHR
deriving DecidableEq

/-- `required = {'Lap','Time','HR'}` (source line 118). -/
def requiredCols : List String := ["Lap", "Time", "HR"]

/-- `required - set(df.columns)` (source line 119), listed in the fixed
order `Lap, Time, HR` (a Python set is unordered). -/
def missingCols (present : List String) : List String :=
  requiredCols.filter fun c => !(present.contains c)

/-- Stable ascending insertion by `lap` (embedding `df.sort_values('Lap')`,
source line 131). -/
def insertRow (r : Row) : List Row → List Row
  | [] => [r]
  | x :: xs => if x.lap ≤ r.lap then x :: insertRow r xs else r :: x :: xs

def sortByLap (rs : List Row) : List Row :=
  rs.foldl (fun acc r => insertRow r acc) []

/-- What the script computes and hands to the presentation layer. -/
structure AppOut where
  timeSecs : List (Option ℚ)
  thr : ℤ
  maxHr : ℤ
  zones : List Band
deriving DecidableEq

/-- The anchor-and-zone computation once all fallible steps are past
(source lines 149-178): observed maximum, LTHR detection, sidebar
overrides with the detected/observed values as defaults (no bound check
of any kind on the overrides), model selection and zone construction. -/
def computeOut (rows : List Row) (comps : List (List ℚ))
    (thrOv maxOv : Option ℤ) (model : ZoneModel) : AppOut :=
  let hrs := rows.map Row.hr
  let thr := thrOv.getD (detectLTHR hrs)
  let maxv := maxOv.getD (maxHR hrs)
  let zones :=
    match model with
    | .byMaxHR => zones_max (maxv : ℚ)
    | .byThresholdHR => zones_thr (thr : ℚ) (maxv : ℚ)
  ⟨comps.map to_sec, thr, maxv, zones⟩

/-- The validation + calculation pipeline of the script, in source order:
column check (118-121, `st.stop` on failure), coercions (123-128,
represented by the typed `Row` fields), sort by lap (131), `Time_sec`
derivation (141-142: a `float` failure on any component is an uncaught
`ValueError` aborting the run, a wrong count of numeric components is a
per-cell `np.nan`), `int(df['HR'].max())` (149: uncaught `ValueError`
on a zero-row table, before any override is read), then
`computeOut` (149-178).  No anchor validation exists anywhere in the
source. -/
def runApp (t : InTable) (thrOv maxOv : Option ℤ) (model : ZoneModel) :
    Except AppError AppOut :=
  if missingCols t.cols ≠ [] then .error (.missingColumns (missingCols t.cols))
  else
    let rows := sortByLap t.rows
    match rows.mapM (fun r => timeComponents r.time) with
    | none => .error .timeFloatRaise
    | some comps =>
      if rows.isEmpty then .error .maxNanRaise
      else .ok (computeOut rows comps thrOv maxOv model)

/-! ## Spec-side predicates and integer twins

`QualIdx` states the inflection condition in the words of the
specification (via `specDelta`); `qualifiesAtZ` is an integer-arithmetic
twin of the source condition used to evaluate concrete instances (over
`ℤ`, `a < 0.5*b` is exactly `2*a < b`). -/

/-- The qualifying-inflection condition at index `i`, as the claims word
it: `delta[i] > 0`, `delta[i-1] > 0`, `delta[i] < 0.5*delta[i-1]`. -/
def QualIdx (hrs : List ℤ) (i : ℕ) : Prop :=
  0 < specDelta hrs i ∧ 0 < specDelta hrs (i - 1) ∧
    (specDelta hrs i : ℚ) < 0.5 * (specDelta hrs (i - 1) : ℚ)

/-- Integer form of the loop condition, for concrete evaluation. -/
def qualifiesAtZ (hrs : List ℤ) (i : ℕ) : Bool :=
  decide (0 < inc hrs i) && decide (0 < inc hrs (i - 1)) &&
    decide (2 * inc hrs i < inc hrs (i - 1))

/-! ## Helper lemmas -/

theorem half_lt_iff (a b : ℤ) : ((a : ℚ) < 0.5 * (b : ℚ)) ↔ 2 * a < b := by
  constructor
  · intro h
    have h2 : ((2 * a : ℤ) : ℚ) < ((b : ℤ) : ℚ) := by push_cast; nlinarith
    exact_mod_cast h2
  · intro h
    have h2 : ((2 * a : ℤ) : ℚ) < ((b : ℤ) : ℚ) := by exact_mod_cast h
    push_cast at h2
    nlinarith

theorem qualifiesAt_eq_qualifiesAtZ (hrs : List ℤ) (i : ℕ) :
    qualifiesAt hrs i = qualifiesAtZ hrs i := by
  unfold qualifiesAt qualifiesAtZ
  congr 1
  exact decide_eq_decide.mpr (half_lt_iff _ _)

theorem detectIdx_eq_findZ (hrs : List ℤ) :
    detectIdx hrs = (List.range' 2 (hrs.length - 2)).find? (qualifiesAtZ hrs) := by
  unfold detectIdx
  congr 1
  funext i
  exact qualifiesAt_eq_qualifiesAtZ hrs i

theorem qualifiesAt_true_iff (hrs : List ℤ) (i : ℕ) :
    qualifiesAt hrs i = true ↔ QualIdx hrs i := by
  unfold qualifiesAt QualIdx
  rw [← inc_eq_specDelta]
  simp [Bool.and_eq_true, decide_eq_true_eq, and_assoc]

theorem QualIdx_iff_int (hrs : List ℤ) (i : ℕ) :
    QualIdx hrs i ↔
      (0 < specDelta hrs i ∧ 0 < specDelta hrs (i - 1) ∧
        2 * specDelta hrs i < specDelta hrs (i - 1)) := by
  unfold QualIdx
  rw [half_lt_iff]

/-- `find?` over `range' s n` returns exactly the least index in
`[s, s+n)` satisfying the predicate. -/
theorem find?_range'_eq_some_iff {p : ℕ → Bool} :
    ∀ n s j : ℕ, ((List.range' s n).find? p = some j ↔
      (s ≤ j ∧ j < s + n ∧ p j = true ∧ ∀ k, s ≤ k → k < j → p k = false)) := by
  intro n
  induction n with
  | zero =>
    intro s j
    constructor
    · intro h
      simp [List.range'] at h
    · rintro ⟨h1, h2, -⟩
      omega
  | succ n ih =>
    intro s j
    rw [List.range'_succ]
    by_cases hp : p s = true
    · rw [List.find?_cons_of_pos _ hp]
      constructor
      · intro h
        injection h with h
        subst h
        exact ⟨Nat.le_refl _, by omega, hp, fun k hk1 hk2 => absurd hk1 (by omega)⟩
      · rintro ⟨h1, h2, h3, h4⟩
        by_cases hj : j = s
        · subst hj; rfl
        · exfalso
          have hfalse := h4 s (Nat.le_refl _) (by omega)
          rw [hp] at hfalse
          exact Bool.true_eq_false.mp hfalse
    · rw [List.find?_cons_of_neg _ hp]
      rw [ih (s + 1) j]
      constructor
      · rintro ⟨h1, h2, h3, h4⟩
        refine ⟨by omega, by omega, h3, fun k hk1 hk2 => ?_⟩
        rcases Nat.eq_or_lt_of_le hk1 with hk | hk
        · subst hk
          exact Bool.eq_false_iff.mpr hp
        · exact h4 k (by omega) hk2
      · rintro ⟨h1, h2, h3, h4⟩
        have hjs : j ≠ s := by
          rintro rfl
          exact hp h3
        exact ⟨by omega, by omega, h3, fun k hk1 hk2 => h4 k (by omega) hk2⟩

theorem detectIdx_eq_none_iff (hrs : List ℤ) :
    detectIdx hrs = none ↔ ∀ i, 2 ≤ i → i < hrs.length → ¬ QualIdx hrs i := by
  unfold detectIdx
  rw [List.find?_eq_none]
  constructor
  · intro h i h2 hlen
    rw [← qualifiesAt_true_iff]
    apply h
    rw [List.mem_range']
    exact ⟨i - 2, by omega, by omega⟩
  · intro h x hx
    rw [List.mem_range'] at hx
    obtain ⟨k, hk, rfl⟩ := hx
    rw [qualifiesAt_true_iff]
    exact h _ (by omega) (by omega)

theorem detectIdx_eq_some (hrs : List ℤ) (i : ℕ) (h2 : 2 ≤ i)
    (hlt : i < hrs.length) (hQ : QualIdx hrs i)
    (hmin : ∀ j < i, 2 ≤ j → ¬ QualIdx hrs j) :
    detectIdx hrs = some i := by
  unfold detectIdx
  rw [find?_range'_eq_some_iff]
  refine ⟨h2, by omega, ?_, ?_⟩
  · rw [qualifiesAt_true_iff]
    exact hQ
  · intro k hk1 hk2
    rw [Bool.eq_false_iff, Ne, qualifiesAt_true_iff]
    exact hmin k hk2 hk1

theorem mem_insertRow (a r : Row) (l : List Row) :
    a ∈ insertRow r l ↔ a = r ∨ a ∈ l := by
  induction l with
  | nil => simp [insertRow]
  | cons x xs ih =>
    unfold insertRow
    by_cases h : x.lap ≤ r.lap
    · rw [if_pos h]
      simp only [List.mem_cons, ih]
      tauto
    · rw [if_neg h]
      simp only [List.mem_cons]

theorem mem_sortByLap_aux (rs : List Row) :
    ∀ (acc : List Row) (a : Row),
      a ∈ rs.foldl (fun l r => insertRow r l) acc ↔ a ∈ acc ∨ a ∈ rs := by
  induction rs with
  | nil =>
    intro acc a
    simp
  | cons x xs ih =>
    intro acc a
    simp only [List.foldl_cons]
    rw [ih, mem_insertRow]
    simp only [List.mem_cons]
    tauto

theorem mem_sortByLap (a : Row) (rs : List Row) : a ∈ sortByLap rs ↔ a ∈ rs := by
  unfold sortByLap
  rw [mem_sortByLap_aux]
  simp

theorem length_insertRow (r : Row) (l : List Row) :
    (insertRow r l).length = l.length + 1 := by
  induction l with
  | nil => rfl
  | cons x xs ih =>
    unfold insertRow
    by_cases h : x.lap ≤ r.lap
    · rw [if_pos h]
      simp [ih]
    · rw [if_neg h]
      simp

theorem length_sortByLap_aux (rs : List Row) :
    ∀ acc : List Row,
      (rs.foldl (fun l r => insertRow r l) acc).length = acc.length + rs.length := by
  induction rs with
  | nil =>
    intro acc
    simp
  | cons x xs ih =>
    intro acc
    simp only [List.foldl_cons]
    rw [ih, length_insertRow]
    simp only [List.length_cons]
    omega

theorem length_sortByLap (rs : List Row) : (sortByLap rs).length = rs.length := by
  unfold sortByLap
  rw [length_sortByLap_aux]
  simp

theorem mapM_some_of_isSome {α β : Type} (f : α → Option β) :
    ∀ l : List α, (∀ a ∈ l, (f a).isSome) → ∃ ys, l.mapM f = some ys := by
  intro l
  induction l with
  | nil =>
    intro h
    exact ⟨[], rfl⟩
  | cons x xs ih =>
    intro h
    obtain ⟨y, hy⟩ := Option.isSome_iff_exists.mp (h x (List.mem_cons_self x xs))
    obtain ⟨ys, hys⟩ := ih fun a ha => h a (List.mem_cons_of_mem x ha)
    refine ⟨y :: ys, ?_⟩
    rw [List.mapM_cons, hy, hys]
    rfl

/-- A submission that passes every fallible step — columns present, at
least one row, every time component accepted by `float` — reaches the
calculation and succeeds. -/
theorem runApp_ok_of_valid (t : InTable) (hcols : missingCols t.cols = [])
    (hrows : t.rows ≠ [])
    (htime : ∀ r ∈ t.rows, (timeComponents r.time).isSome)
    (o1 o2 : Option ℤ) (model : ZoneModel) :
    ∃ comps, (sortByLap t.rows).mapM (fun r => timeComponents r.time) = some comps ∧
      runApp t o1 o2 model = .ok (computeOut (sortByLap t.rows) comps o1 o2 model) := by
  obtain ⟨comps, hcomps⟩ := mapM_some_of_isSome (fun r => timeComponents r.time)
    (sortByLap t.rows) (fun r hr => htime r ((mem_sortByLap r t.rows).mp hr))
  refine ⟨comps, hcomps, ?_⟩
  have hlen : (sortByLap t.rows).length = t.rows.length := length_sortByLap t.rows
  have hemp : (sortByLap t.rows).isEmpty = false := by
    cases hs : sortByLap t.rows with
    | nil =>
      exfalso
      apply hrows
      rw [hs] at hlen
      exact List.length_eq_zero.mp hlen.symm
    | cons a l => rfl
  unfold runApp
  rw [if_neg (not_not_intro hcols)]
  simp only [hcomps, hemp, Bool.false_eq_true, if_false]

/-- Fidelity of the modelled abort at source line 149: a header-only
(zero-row) table passes the column check but the script crashes at
`int(df['HR'].max())` before any override is read — even with both
anchors overridden it yields nothing. -/
theorem runApp_empty_rows_raises :
    runApp ⟨["Lap", "Time", "HR"], []⟩ (some 190) (some 180) .byMaxHR =
      .error .maxNanRaise := rfl

/-- Fidelity of the modelled abort at source line 135: a non-numeric
time component makes `float` raise out of `df['Time'].apply`, aborting
the submission (this is not the `np.nan` path of a wrong count of
numeric components). -/
theorem runApp_float_raises :
    runApp ⟨["Lap", "Time", "HR"], [⟨1, "a:b:c:d", 150⟩]⟩ none none .byMaxHR =
      .error .timeFloatRaise := rfl

/-! ## Claim theorems -/

/-- C1: For every normalized lap sequence of at least 3 records with no
threshold override, where `delta[i] = heartRate[i] - heartRate[i-1]`
(`delta[0] = 0`), the detected `thresholdHeartRate` equals `heartRate[i]`
at the smallest index `i ≥ 2` such that `delta[i] > 0`, `delta[i-1] > 0`,
and `delta[i] < 0.5*delta[i-1]`, whenever such an index exists; scanning
stops at that first qualifying index even if a sharper inflection occurs
later (only minimality below the index is assumed, nothing about later
indices). -/
theorem detect_first_inflection (hrs : List ℤ) (h3 : 3 ≤ hrs.length)
    (i : ℕ) (h2 : 2 ≤ i) (hlt : i < hrs.length) (hQ : QualIdx hrs i)
    (hmin : ∀ j < i, 2 ≤ j → ¬ QualIdx hrs j) :
    detectLTHR hrs = hrs.getD i 0 := by
  unfold detectLTHR
  rw [detectIdx_eq_some hrs i h2 hlt hQ hmin]

/-- Witness for C1: HR sequence `[100, 110, 120, 123]` (deltas
`0, 10, 10, 3`) has its first qualifying inflection at index 3
(`3 < 0.5*10`), and detection returns `123`. -/
theorem detect_first_inflection_witness :
    3 ≤ ([100, 110, 120, 123] : List ℤ).length ∧
    2 ≤ 3 ∧ 3 < ([100, 110, 120, 123] : List ℤ).length ∧
    QualIdx [100, 110, 120, 123] 3 ∧
    (∀ j < 3, 2 ≤ j → ¬ QualIdx [100, 110, 120, 123] j) ∧
    detectLTHR [100, 110, 120, 123] = 123 := by
  have hQ : QualIdx [100, 110, 120, 123] 3 := (QualIdx_iff_int _ _).mpr (by decide)
  have hmin : ∀ j < 3, 2 ≤ j → ¬ QualIdx [100, 110, 120, 123] j := by
    intro j hj h2j
    have hj2 : j = 2 := by omega
    subst hj2
    rw [QualIdx_iff_int]
    decide
  refine ⟨by decide, by decide, by decide, hQ, hmin, ?_⟩
  have hmain :=
    detect_first_inflection [100, 110, 120, 123] (by decide) 3 (by decide) (by decide) hQ hmin
  rw [hmain]
  decide

/-- C2 as stated is false: on the spec's own example sequence
`[134, 149, 159, 166, 173, 178, 182]` no inflection qualifies, and the
source computes `int(0.9*182) = 163` (truncation), not
`round(0.9*182) = 164`. -/
theorem detect_fallback_counterexample :
    detectLTHR [134, 149, 159, 166, 173, 178, 182] = 163 ∧
    round ((0.9 : ℚ) * (maxHR [134, 149, 159, 166, 173, 178, 182] : ℚ)) = 164 ∧
    detectLTHR [134, 149, 159, 166, 173, 178, 182] ≠
      round ((0.9 : ℚ) * (maxHR [134, 149, 159, 166, 173, 178, 182] : ℚ)) := by
  have hmax : maxHR [134, 149, 159, 166, 173, 178, 182] = 182 := by decide
  have hidx : detectIdx [134, 149, 159, 166, 173, 178, 182] = none := by
    rw [detectIdx_eq_findZ]
    decide
  have h1 : detectLTHR [134, 149, 159, 166, 173, 178, 182] = 163 := by
    unfold detectLTHR
    rw [hidx, hmax]
    norm_num [pyTrunc]
  have h2 : round ((0.9 : ℚ) * (maxHR [134, 149, 159, 166, 173, 178, 182] : ℚ)) = 164 := by
    rw [hmax]
    norm_num [round_eq]
  refine ⟨h1, h2, ?_⟩
  rw [h1, h2]
  decide

/-- C2 (amended): For every nonempty normalized lap sequence with no
threshold override in which no qualifying inflection index exists — in
particular every sequence with fewer than 3 records — the detected
`thresholdHeartRate` equals `int(0.9 * maxHeartRate)`, Python's
truncation toward zero; for observed maximum 182 that is 163. -/
theorem detect_fallback (hrs : List ℤ) (hne : hrs ≠ [])
    (hnoq : ∀ i, 2 ≤ i → i < hrs.length → ¬ QualIdx hrs i) :
    detectLTHR hrs = pyTrunc (0.9 * (maxHR hrs : ℚ)) := by
  unfold detectLTHR
  rw [(detectIdx_eq_none_iff hrs).mpr hnoq]

/-- Witness for the amended C2 at the spec's example sequence: detection
falls back and yields 163. -/
theorem detect_fallback_witness :
    ([134, 149, 159, 166, 173, 178, 182] : List ℤ) ≠ [] ∧
    (∀ i, 2 ≤ i → i < ([134, 149, 159, 166, 173, 178, 182] : List ℤ).length →
      ¬ QualIdx [134, 149, 159, 166, 173, 178, 182] i) ∧
    detectLTHR [134, 149, 159, 166, 173, 178, 182] = 163 := by
  have hnoq : ∀ i, 2 ≤ i → i < ([134, 149, 159, 166, 173, 178, 182] : List ℤ).length →
      ¬ QualIdx [134, 149, 159, 166, 173, 178, 182] i := by
    intro i h2 hlen
    rw [QualIdx_iff_int]
    have h7 : i < 7 := by simpa using hlen
    interval_cases i <;> decide
  refine ⟨by decide, hnoq, ?_⟩
  have h := detect_fallback [134, 149, 159, 166, 173, 178, 182] (by decide) hnoq
  rw [h]
  have hmax : maxHR [134, 149, 159, 166, 173, 178, 182] = 182 := by decide
  rw [hmax]
  norm_num [pyTrunc]

/-- C3: For every `maxHeartRate` M the `byMaxHR` bands are exactly
`[0.55M,0.70M), [0.70M,0.80M), [0.80M,0.87M), [0.87M,0.92M), [0.92M,M]`;
in particular for M = 200 they are
`[110,140), [140,160), [160,174), [174,184), [184,200]`. -/
theorem zones_max_bands :
    (∀ m : ℚ, zones_max m =
      [("Zone 1", 0.55 * m, 0.70 * m),
       ("Zone 2", 0.70 * m, 0.80 * m),
       ("Zone 3", 0.80 * m, 0.87 * m),
       ("Zone 4", 0.87 * m, 0.92 * m),
       ("Zone 5", 0.92 * m, m)]) ∧
    zones_max 200 =
      [("Zone 1", 110, 140), ("Zone 2", 140, 160), ("Zone 3", 160, 174),
       ("Zone 4", 174, 184), ("Zone 5", 184, 200)] := by
  constructor
  · intro m
    rfl
  · unfold zones_max
    norm_num

/-- C4: For every `thresholdHeartRate` T and `maxHeartRate` M, the
`byThresholdHR` Z5 band is `[T, max(1.15T, M)]`, so its upper bound is
never below the observed maximum M. -/
theorem zones_thr_z5 (t m : ℚ) :
    (zones_thr t m).getD 4 ("", 0, 0) = ("Zone 5", t, max (t * 1.15) m) ∧
    m ≤ bandHi ((zones_thr t m).getD 4 ("", 0, 0)) := by
  constructor
  · rfl
  · show m ≤ max (t * 1.15) m
    exact le_max_right _ _

/-- C5: For every positive pair of anchors (M, T), under either model
the five bands are contiguous (`highBound(Zn) = lowBound(Zn+1)` for
n = 1..4) and their low bounds are ordered. -/
theorem zones_contiguous_ordered (m t : ℚ) (hm : 0 < m) (ht : 0 < t) :
    (∀ i < 4, bandHi ((zones_max m).getD i ("", 0, 0)) =
      bandLo ((zones_max m).getD (i + 1) ("", 0, 0))) ∧
    (∀ i < 4, bandLo ((zones_max m).getD i ("", 0, 0)) ≤
      bandLo ((zones_max m).getD (i + 1) ("", 0, 0))) ∧
    (∀ i < 4, bandHi ((zones_thr t m).getD i ("", 0, 0)) =
      bandLo ((zones_thr t m).getD (i + 1) ("", 0, 0))) ∧
    (∀ i < 4, bandLo ((zones_thr t m).getD i ("", 0, 0)) ≤
      bandLo ((zones_thr t m).getD (i + 1) ("", 0, 0))) := by
  refine ⟨?_, ?_, ?_, ?_⟩ <;> intro i hi <;> interval_cases i <;>
    simp [zones_max, zones_thr, bandLo, bandHi] <;> nlinarith

/-- Witness for C5 at M = 200, T = 160. -/
theorem zones_contiguous_ordered_witness :
    (0 : ℚ) < 200 ∧ (0 : ℚ) < 160 ∧
    ((∀ i < 4, bandHi ((zones_max 200).getD i ("", 0, 0)) =
      bandLo ((zones_max 200).getD (i + 1) ("", 0, 0))) ∧
    (∀ i < 4, bandLo ((zones_max 200).getD i ("", 0, 0)) ≤
      bandLo ((zones_max 200).getD (i + 1) ("", 0, 0))) ∧
    (∀ i < 4, bandHi ((zones_thr 160 200).getD i ("", 0, 0)) =
      bandLo ((zones_thr 160 200).getD (i + 1) ("", 0, 0))) ∧
    (∀ i < 4, bandLo ((zones_thr 160 200).getD i ("", 0, 0)) ≤
      bandLo ((zones_thr 160 200).getD (i + 1) ("", 0, 0)))) :=
  ⟨by norm_num, by norm_num,
    zones_contiguous_ordered 200 160 (by norm_num) (by norm_num)⟩

/-- C6: splitting a time string on `:` into exactly two numeric
components (m, s) yields `m*60 + s` seconds, and three components
(h, m, s) yield `h*3600 + m*60 + s`; in particular `"3:10"` gives 190
and `"1:02:03"` gives 3723. -/
theorem to_sec_components :
    (∀ a b : ℚ, to_sec [a, b] = some (a * 60 + b)) ∧
    (∀ a b c : ℚ, to_sec [a, b, c] = some (a * 3600 + b * 60 + c)) ∧
    to_sec_str "3:10" = some 190 ∧
    to_sec_str "1:02:03" = some 3723 := by
  refine ⟨fun a b => rfl, fun a b c => rfl, ?_, ?_⟩
  · have h : to_sec_str "3:10" =
        some (((1 : ℤ) : ℚ) * ((3 : ℕ) : ℚ) * 60 + ((1 : ℤ) : ℚ) * ((10 : ℕ) : ℚ)) := rfl
    rw [h]
    norm_num
  · have h : to_sec_str "1:02:03" =
        some (((1 : ℤ) : ℚ) * ((1 : ℕ) : ℚ) * 3600 + ((1 : ℤ) : ℚ) * ((2 : ℕ) : ℚ) * 60 +
          ((1 : ℤ) : ℚ) * ((3 : ℕ) : ℚ)) := rfl
    rw [h]
    norm_num

/-- C7 is false as stated: on the four-component time string
`"3:10:5:2"` (every component numeric) the source's `to_sec` returns
`np.nan` (embedded `none`) and raises no `TimeFormatError`; the
submission is not rejected — the pipeline still produces a complete
zone table. -/
theorem timeformat_counterexample :
    to_sec_str "3:10:5:2" = none ∧
    runApp ⟨["Lap", "Time", "HR"], [⟨1, "3:10:5:2", 150⟩]⟩ none none .byMaxHR =
      .ok ⟨[none], 135, 150, zones_max 150⟩ := by
  refine ⟨rfl, ?_⟩
  have hthr : detectLTHR [150] = 135 := by
    have hidx : detectIdx [150] = none := by
      rw [detectIdx_eq_findZ]
      decide
    unfold detectLTHR
    rw [hidx]
    have hmax : maxHR [150] = 150 := by decide
    rw [hmax]
    norm_num [pyTrunc]
  obtain ⟨comps, hcomps, hok⟩ :=
    runApp_ok_of_valid ⟨["Lap", "Time", "HR"], [⟨1, "3:10:5:2", 150⟩]⟩ (by decide) (by decide)
      (by
        intro r hr
        simp at hr
        subst hr
        rfl)
      none none .byMaxHR
  have h0 : (sortByLap [⟨1, "3:10:5:2", 150⟩]).mapM (fun r => timeComponents r.time) =
      some [[((1 : ℤ) : ℚ) * ((3 : ℕ) : ℚ), ((1 : ℤ) : ℚ) * ((10 : ℕ) : ℚ),
        ((1 : ℤ) : ℚ) * ((5 : ℕ) : ℚ), ((1 : ℤ) : ℚ) * ((2 : ℕ) : ℚ)]] := rfl
  have hc2 : comps = [[((1 : ℤ) : ℚ) * ((3 : ℕ) : ℚ), ((1 : ℤ) : ℚ) * ((10 : ℕ) : ℚ),
      ((1 : ℤ) : ℚ) * ((5 : ℕ) : ℚ), ((1 : ℤ) : ℚ) * ((2 : ℕ) : ℚ)]] :=
    (Option.some_inj.mp (h0.symm.trans hcomps)).symm
  rw [hok, hc2]
  unfold computeOut
  have hts : to_sec [((1 : ℤ) : ℚ) * ((3 : ℕ) : ℚ), ((1 : ℤ) : ℚ) * ((10 : ℕ) : ℚ),
      ((1 : ℤ) : ℚ) * ((5 : ℕ) : ℚ), ((1 : ℤ) : ℚ) * ((2 : ℕ) : ℚ)] = none := rfl
  have hmax : maxHR [150] = 150 := by decide
  simp only [List.map_cons, List.map_nil, Option.getD_none, hts]
  rw [show sortByLap [(⟨1, "3:10:5:2", 150⟩ : Row)] = [⟨1, "3:10:5:2", 150⟩] from rfl]
  simp only [List.map_cons, List.map_nil, hthr, hmax]
  norm_num

/-- C7 (amended): a component count other than two or three — with
every component numeric, i.e. accepted by `float` — yields no
`elapsedSeconds` value for that cell (`np.nan`, embedded `none`) and
raises no `TimeFormatError`; a submission carrying such a cell is not
rejected: with the required columns present, at least one row, and
every time component numeric, the pipeline still returns a complete
result.  (A *non-numeric* component instead aborts the run with an
uncaught `ValueError` from `float` — see `runApp`'s `timeFloatRaise`
branch — which is still not a `TimeFormatError`.) -/
theorem to_sec_nan_no_error :
    (∀ parts : List ℚ, parts.length ≠ 2 → parts.length ≠ 3 → to_sec parts = none) ∧
    (∀ t : InTable, missingCols t.cols = [] → t.rows ≠ [] →
      (∀ r ∈ t.rows, (timeComponents r.time).isSome) →
      ∀ o1 o2 : Option ℤ, ∀ model : ZoneModel,
        ∃ out, runApp t o1 o2 model = .ok out) := by
  constructor
  · intro parts h2 h3
    match parts with
    | [] => rfl
    | [a] => rfl
    | [a, b] => exact absurd rfl h2
    | [a, b, c] => exact absurd rfl h3
    | a :: b :: c :: d :: t => rfl
  · intro t hcols hrows htime o1 o2 model
    obtain ⟨comps, -, hok⟩ := runApp_ok_of_valid t hcols hrows htime o1 o2 model
    exact ⟨_, hok⟩

/-- Witness for the amended C7: the four numeric components of
`"3:10:5:2"` parse to no seconds value, and the submission carrying
that cell still succeeds. -/
theorem to_sec_nan_no_error_witness :
    ([(3 : ℚ), 10, 5, 2].length ≠ 2) ∧ ([(3 : ℚ), 10, 5, 2].length ≠ 3) ∧
    to_sec [(3 : ℚ), 10, 5, 2] = none ∧
    missingCols ["Lap", "Time", "HR"] = [] ∧
    ([⟨1, "3:10:5:2", 150⟩] : List Row) ≠ [] ∧
    (∀ r ∈ ([⟨1, "3:10:5:2", 150⟩] : List Row), (timeComponents r.time).isSome) ∧
    (∃ out, runApp ⟨["Lap", "Time", "HR"], [⟨1, "3:10:5:2", 150⟩]⟩ none none .byMaxHR =
      .ok out) := by
  have ht : ∀ r ∈ ([⟨1, "3:10:5:2", 150⟩] : List Row), (timeComponents r.time).isSome := by
    intro r hr
    simp at hr
    subst hr
    rfl
  refine ⟨by decide, by decide, ?_, by decide, by decide, ht, ?_⟩
  · exact to_sec_nan_no_error.1 [(3 : ℚ), 10, 5, 2] (by decide) (by decide)
  · exact to_sec_nan_no_error.2 ⟨["Lap", "Time", "HR"], [⟨1, "3:10:5:2", 150⟩]⟩ (by decide)
      (by decide) ht none none .byMaxHR

/-- C8: a table missing at least one required column (`Lap`, `Time`,
`HR`) fails with a `MissingColumnError` naming every absent required
column and nothing else, and produces no partial result. -/
theorem missing_columns_error (t : InTable) (hne : missingCols t.cols ≠ [])
    (o1 o2 : Option ℤ) (model : ZoneModel) :
    runApp t o1 o2 model = .error (.missingColumns (missingCols t.cols)) ∧
    (∀ c ∈ requiredCols, c ∉ t.cols → c ∈ missingCols t.cols) ∧
    (∀ c ∈ missingCols t.cols, c ∈ requiredCols ∧ c ∉ t.cols) := by
  refine ⟨?_, ?_, ?_⟩
  · unfold runApp
    rw [if_pos hne]
  · intro c hc hnc
    unfold missingCols
    rw [List.mem_filter]
    refine ⟨hc, ?_⟩
    simpa using hnc
  · intro c hc
    unfold missingCols at hc
    rw [List.mem_filter] at hc
    refine ⟨hc.1, ?_⟩
    have h2 := hc.2
    simpa using h2

/-- Witness for C8: a table with only `Lap` and `Time` yields an error
naming exactly `HR`. -/
theorem missing_columns_error_witness :
    missingCols ["Lap", "Time"] ≠ [] ∧ missingCols ["Lap", "Time"] = ["HR"] ∧
    runApp ⟨["Lap", "Time"], [⟨1, "3:10", 145⟩]⟩ none none .byMaxHR =
      .error (.missingColumns ["HR"]) := by
  have hne : missingCols ["Lap", "Time"] ≠ [] := by decide
  have heq : missingCols ["Lap", "Time"] = ["HR"] := by decide
  refine ⟨hne, heq, ?_⟩
  have h := (missing_columns_error ⟨["Lap", "Time"], [⟨1, "3:10", 145⟩]⟩ hne
    none none .byMaxHR).1
  rw [h, heq]

/-- C9 is false as stated: with the nonpositive threshold override −5
(and max 145) the source rejects nothing — it computes a complete
`byThresholdHR` zone table from the unchanged anchors; no
`InvalidAnchorError` exists anywhere in the code. -/
theorem invalid_anchor_counterexample :
    runApp ⟨["Lap", "Time", "HR"], [⟨1, "3:10", 145⟩]⟩ (some (-5)) (some 145) .byThresholdHR =
      .ok ⟨[some 190], -5, 145, zones_thr (-5) 145⟩ := by
  obtain ⟨comps, hcomps, hok⟩ :=
    runApp_ok_of_valid ⟨["Lap", "Time", "HR"], [⟨1, "3:10", 145⟩]⟩ (by decide) (by decide)
      (by
        intro r hr
        simp at hr
        subst hr
        rfl)
      (some (-5)) (some 145) .byThresholdHR
  have h0 : (sortByLap [⟨1, "3:10", 145⟩]).mapM (fun r => timeComponents r.time) =
      some [[((1 : ℤ) : ℚ) * ((3 : ℕ) : ℚ), ((1 : ℤ) : ℚ) * ((10 : ℕ) : ℚ)]] := rfl
  have hc2 : comps = [[((1 : ℤ) : ℚ) * ((3 : ℕ) : ℚ), ((1 : ℤ) : ℚ) * ((10 : ℕ) : ℚ)]] :=
    (Option.some_inj.mp (h0.symm.trans hcomps)).symm
  rw [hok, hc2]
  unfold computeOut
  simp only [List.map_cons, List.map_nil, Option.getD_some]
  norm_num [to_sec]

/-- C9 (amended): the calculator performs no anchor validation at all:
on every submission that reaches the anchor stage (columns present, at
least one row, every time component numeric), every override pair —
including `thresholdHeartRate ≤ 0` or `maxHeartRate ≤ 0` — is accepted
unchanged (no clamping, no error) and a zone table is computed from it.
(A submission can still die *earlier*, at the column check or at the
line-135/149 crashes, but never because of an anchor value.) -/
theorem no_anchor_validation (t : InTable) (hcols : missingCols t.cols = [])
    (hrows : t.rows ≠ [])
    (htime : ∀ r ∈ t.rows, (timeComponents r.time).isSome)
    (a b : ℤ) (model : ZoneModel) :
    ∃ secs, runApp t (some a) (some b) model =
      .ok ⟨secs, a, b,
        match model with
        | .byMaxHR => zones_max (b : ℚ)
        | .byThresholdHR => zones_thr (a : ℚ) (b : ℚ)⟩ := by
  obtain ⟨comps, -, hok⟩ := runApp_ok_of_valid t hcols hrows htime (some a) (some b) model
  exact ⟨comps.map to_sec, by rw [hok]; rfl⟩

/-- Witness for the amended C9 at the override pair (−5, 145). -/
theorem no_anchor_validation_witness :
    missingCols ["Lap", "Time", "HR"] = [] ∧
    ([⟨1, "3:10", 145⟩] : List Row) ≠ [] ∧
    (∀ r ∈ ([⟨1, "3:10", 145⟩] : List Row), (timeComponents r.time).isSome) ∧
    (∃ secs,
      runApp ⟨["Lap", "Time", "HR"], [⟨1, "3:10", 145⟩]⟩ (some (-5)) (some 145) .byThresholdHR =
        .ok ⟨secs, -5, 145, zones_thr ((-5 : ℤ) : ℚ) ((145 : ℤ) : ℚ)⟩) := by
  have ht : ∀ r ∈ ([⟨1, "3:10", 145⟩] : List Row), (timeComponents r.time).isSome := by
    intro r hr
    simp at hr
    subst hr
    rfl
  refine ⟨by decide, by decide, ht, ?_⟩
  exact no_anchor_validation ⟨["Lap", "Time", "HR"], [⟨1, "3:10", 145⟩]⟩ (by decide)
    (by decide) ht (-5) 145 .byThresholdHR

/-- C10: For every `thresholdHeartRate` T ≥ 0 and every `maxHeartRate`
M, each `byThresholdHR` band satisfies `lowBound ≤ highBound`; in
particular Z5's upper bound `max(1.15T, M)` is at least T, so no band
inverts even when M < T. -/
theorem zones_thr_no_inversion (t m : ℚ) (ht : 0 ≤ t) :
    ∀ i < 5, bandLo ((zones_thr t m).getD i ("", 0, 0)) ≤
      bandHi ((zones_thr t m).getD i ("", 0, 0)) := by
  intro i hi
  interval_cases i <;> simp [zones_thr, bandLo, bandHi] <;>
    first
      | nlinarith
      | exact Or.inl (by nlinarith)

/-- Witness for C10 at T = 160, M = 150 (maximum below threshold). -/
theorem zones_thr_no_inversion_witness :
    (0 : ℚ) ≤ 160 ∧
    ∀ i < 5, bandLo ((zones_thr 160 150).getD i ("", 0, 0)) ≤
      bandHi ((zones_thr 160 150).getD i ("", 0, 0)) :=
  ⟨by norm_num, zones_thr_no_inversion 160 150 (by norm_num)⟩

end NordicZones
